import Mathlib

/-!
Shallow embedding of `src/main.cpp` (class `SlotMachine`), a command-line
slot-machine game backed by a SQLite store.

Modelling conventions:
* The two SQLite tables `players` and `spin_history` are modelled as Lean
  lists of records, together with the AUTOINCREMENT counter for the
  `players` primary key (first assigned id is 1, as in SQLite).
* The C++ `double` currency values are modelled as `ℚ` (the spec fixes no
  precision or rounding policy for currency; the claims are algebraic).
* Each fallible store operation (`sqlite3_step` / `sqlite3_exec`) takes an
  explicit success flag `ok : Bool` standing for whether the underlying
  SQLite call succeeds; on failure the source prints a diagnostic to
  `std::cerr` and continues, which we model by returning the unchanged
  store together with the diagnostic string.
* The per-spin randomness (`std::mt19937` fed through
  `uniform_int_distribution<>(0, 3)`) is modelled as an explicit draw
  function `Fin 9 → Fin 4`, one draw per grid cell, consumed in row-major
  order exactly as the nested loops of `getSpinResult` consume
  `dist(gen)`.
* Interactive input is modelled as the list of loop iterations the user
  drives: each iteration carries the command character read by
  `std::cin >> choice` and, for the non-quit case, the bet amount, the
  spin's random draws, and the success flags of the two store writes.
-/

/-- A row of the `players` table: `id INTEGER PRIMARY KEY AUTOINCREMENT`,
`name TEXT`, `age INTEGER`, `card TEXT`, `balance REAL DEFAULT 0`. -/
structure Player where
  id : Int
  name : String
  age : Int
  card : String
  balance : ℚ
deriving DecidableEq, Repr

/-- A row of the `spin_history` table (its own AUTOINCREMENT key is never
read by the program and is not modelled): `player_id`, `bet`, `winnings`,
`balance`. -/
structure SpinRecord where
  player_id : Int
  bet : ℚ
  winnings : ℚ
  balance : ℚ
deriving DecidableEq, Repr

/-- The persistent store `slot_machine.db`: both tables plus the
AUTOINCREMENT counter for `players.id`. -/
structure DB where
  players : List Player
  history : List SpinRecord
  nextId : Int
deriving DecidableEq, Repr

/-- A freshly created store: no rows, first id to be assigned is 1. -/
def emptyDB : DB := { players := [], history := [], nextId := 1 }

/-- Store well-formedness: every player id was assigned by the
AUTOINCREMENT counter, so ids are at least 1 and below the counter. -/
def DB.WF (db : DB) : Prop :=
  (∀ p ∈ db.players, 1 ≤ p.id ∧ p.id < db.nextId) ∧ 1 ≤ db.nextId

/-- `SlotMachine::executeQuery`: runs a statement; on failure prints
"Error executing query: ..." and continues.  The two statements it is
called with (`CREATE TABLE IF NOT EXISTS ...`) do not change the row
contents, so the store is returned unchanged in both branches. -/
def executeQuery (db : DB) (ok : Bool) : DB × List String :=
  if ok then (db, []) else (db, ["Error executing query."])

/-- `SlotMachine::createTables`: two `executeQuery` calls (players table,
then spin_history table). -/
def createTables (db : DB) (ok1 ok2 : Bool) : DB × List String :=
  let r1 := executeQuery db ok1
  let r2 := executeQuery r1.1 ok2
  (r2.1, r1.2 ++ r2.2)

/-- The `WHERE name = ? AND age = ? AND card = ?` predicate of
`getPlayerID`. -/
def matchesIdentity (p : Player) (name : String) (age : Int) (card : String) : Bool :=
  p.name == name && p.age == age && p.card == card

/-- `SlotMachine::getPlayerID`: `SELECT id FROM players WHERE name = ?
AND age = ? AND card = ?`; one `sqlite3_step`, so the id of the first
matching row, with `-1` kept when no row matches. -/
def getPlayerID (db : DB) (name : String) (age : Int) (card : String) : Int :=
  match db.players.find? (fun p => matchesIdentity p name age card) with
  | some p => p.id
  | none => -1

/-- `SlotMachine::addPlayer`: `INSERT INTO players (name, age, card)
VALUES (?, ?, ?)`; the id comes from AUTOINCREMENT and `balance` takes
its declared `DEFAULT 0`.  On step failure prints "Error adding player."
and the row is not inserted. -/
def addPlayer (db : DB) (name : String) (age : Int) (card : String) (ok : Bool) :
    DB × List String :=
  if ok then
    let newRow : Player :=
      { id := db.nextId, name := name, age := age, card := card, balance := 0 }
    ({ players := db.players ++ [newRow], history := db.history,
       nextId := db.nextId + 1 }, [])
  else (db, ["Error adding player."])

/-- `SlotMachine::updateBalance`: `UPDATE players SET balance = ? WHERE
id = ?`; every row whose id matches gets the new balance, all other rows
and fields are untouched.  On step failure prints "Error updating
balance." and no row changes. -/
def updateBalance (db : DB) (playerId : Int) (newBalance : ℚ) (ok : Bool) :
    DB × List String :=
  if ok then
    ({ db with players := db.players.map (fun p =>
         if p.id == playerId then { p with balance := newBalance } else p) }, [])
  else (db, ["Error updating balance."])

/-- `SlotMachine::saveSpinHistory`: `INSERT INTO spin_history (player_id,
bet, winnings, balance) VALUES (?, ?, ?, ?)`.  On step failure prints
"Error saving spin history." and no row is inserted. -/
def saveSpinHistory (db : DB) (playerId : Int) (bet winnings balance : ℚ) (ok : Bool) :
    DB × List String :=
  if ok then
    let newRow : SpinRecord :=
      { player_id := playerId, bet := bet, winnings := winnings, balance := balance }
    ({ db with history := db.history ++ [newRow] }, [])
  else (db, ["Error saving spin history."])

/-- The member `std::map<char, int> symbols = \x7b\x7b'A', 5\x7d, \x7b'B', 4\x7d,
\x7b'C', 3\x7d, \x7b'D', 2\x7d\x7d;`.  `std::map` iterates in key order; the
initializer is already sorted by key, so the list order below is the
map's iteration order. -/
def symbols : List (Char × Int) := [('A', 5), ('B', 4), ('C', 3), ('D', 2)]

/-- The iteration-ordered keys of `symbols` (what
`std::advance(it, k); it->first` selects from). -/
def symbolKeys : List Char := symbols.map Prod.fst

/-- Advancing an iterator `k` steps from `symbols.begin()` and reading
`->first`: the `k`-th key of the map. -/
def symbolAt (k : Fin 4) : Char := symbolKeys.get (Fin.cast (by decide) k)

/-- Row-major cell index: cell `(i, j)` of the grid consumes the
`3*i + j`-th call of `dist(gen)` inside `getSpinResult`'s nested loops. -/
def cellIndex (i j : Fin 3) : Fin 9 :=
  ⟨3 * i.val + j.val, by have hi := i.isLt; have hj := j.isLt; omega⟩

/-- `SlotMachine::getSpinResult`: a 3×3 grid; for each cell the iterator
is advanced from `symbols.begin()` by one fresh draw of
`uniform_int_distribution<>(0, symbols.size() - 1)` (i.e. `Fin 4`) and
the key under the iterator is stored; the iterator is reset to
`begin()` after every cell. -/
def getSpinResult (draw : Fin 9 → Fin 4) : List (List Char) :=
  List.ofFn (fun i : Fin 3 => List.ofFn (fun j : Fin 3 => symbolAt (draw (cellIndex i j))))

/-- One iteration of the `while (true)` loop in `SlotMachine::play`: the
command character read by `std::cin >> choice`, and — consumed only when
the command is not `'q'` — the bet read by `std::cin >> bet`, the spin's
random draws, and the success flags of the `updateBalance` and
`saveSpinHistory` calls. -/
structure LoopStep where
  choice : Char
  bet : ℚ
  draw : Fin 9 → Fin 4
  updOk : Bool
  saveOk : Bool

/-- What one executed spin shows the user: the displayed grid and the
"New Balance: " line, plus the bet that was entered. -/
structure SpinOut where
  grid : List (List Char)
  bet : ℚ
  reported : ℚ
deriving DecidableEq, Repr

/-- Result of running the `while (true)` loop of `play`. -/
structure LoopResult where
  db : DB
  balance : ℚ
  spins : List SpinOut
  errors : List String
  quit : Bool
deriving DecidableEq, Repr

/-- The `while (true)` loop of `SlotMachine::play`, driven by the list of
loop iterations the user supplies.  `'q'` breaks out of the loop; any
other command runs one spin: generate and display the grid, set
`winnings = 0`, `balance += winnings - bet`, `updateBalance`,
`saveSpinHistory`, print the new balance, and loop.  An empty list means
the user has (so far) supplied no further input: the loop is still
awaiting a command (`quit = false`). -/
def runLoop (playerId : Int) : DB → ℚ → List LoopStep → LoopResult
  | db, balance, [] =>
      { db := db, balance := balance, spins := [], errors := [], quit := false }
  | db, balance, s :: rest =>
      if s.choice = 'q' then
        { db := db, balance := balance, spins := [], errors := [], quit := true }
      else
        let grid := getSpinResult s.draw
        let winnings : ℚ := 0
        let balance' := balance + (winnings - s.bet)
        let r1 := updateBalance db playerId balance' s.updOk
        let r2 := saveSpinHistory r1.1 playerId s.bet winnings balance' s.saveOk
        let r := runLoop playerId r2.1 balance' rest
        { db := r.db, balance := r.balance,
          spins := { grid := grid, bet := s.bet, reported := balance' } :: r.spins,
          errors := r1.2 ++ r2.2 ++ r.errors, quit := r.quit }

/-- The interactive input of one `play` call: the identity triple typed
at the three prompts, the success flags of the player insert and of the
initial balance write, and the loop iterations. -/
structure SessionInput where
  name : String
  age : Int
  card : String
  addOk : Bool
  fundOk : Bool
  steps : List LoopStep

/-- Result of `SlotMachine::play`. -/
structure SessionResult where
  playerId : Int
  db : DB
  balance : ℚ
  spins : List SpinOut
  errors : List String
  quit : Bool
deriving DecidableEq, Repr

/-- `SlotMachine::play`: resolve the identity triple (`getPlayerID`, and
on the `-1` sentinel `addPlayer` followed by a second `getPlayerID`),
then `balance = 100.0; updateBalance(playerId, balance)` and the spin
loop. -/
def runSession (db : DB) (inp : SessionInput) : SessionResult :=
  let pid0 := getPlayerID db inp.name inp.age inp.card
  let resolved :=
    if pid0 = -1 then
      let rAdd := addPlayer db inp.name inp.age inp.card inp.addOk
      (rAdd.1, getPlayerID rAdd.1 inp.name inp.age inp.card, rAdd.2)
    else (db, pid0, ([] : List String))
  let playerId := resolved.2.1
  let balance : ℚ := 100
  let rFund := updateBalance resolved.1 playerId balance inp.fundOk
  let r := runLoop playerId rFund.1 balance inp.steps
  { playerId := playerId, db := r.db, balance := r.balance, spins := r.spins,
    errors := resolved.2.2 ++ rFund.2 ++ r.errors, quit := r.quit }

/-- Result of the whole process (`main`). -/
structure MainResult where
  exitCode : Int
  diagnostics : List String
  session : Option SessionResult

/-- `main`: the `SlotMachine` constructor opens `slot_machine.db`; on
failure it prints "Error opening database." and calls `exit(1)`.
Otherwise `createTables` runs, `play()` runs, and `main` returns 0. -/
def mainRun (openOk : Bool) (sch1 sch2 : Bool) (db : DB) (inp : SessionInput) :
    MainResult :=
  if openOk then
    let rT := createTables db sch1 sch2
    let r := runSession rT.1 inp
    { exitCode := 0, diagnostics := rT.2 ++ r.errors, session := some r }
  else
    { exitCode := 1, diagnostics := ["Error opening database."], session := none }

/-- The bets of the loop iterations actually executed as spins: every
iteration before the first `'q'` command. -/
def processedBets : List LoopStep → List ℚ
  | [] => []
  | s :: rest => if s.choice = 'q' then [] else s.bet :: processedBets rest

/-- Count of loop iterations executed as spins. -/
theorem runLoop_spins_length (playerId : Int) (db : DB) (bal : ℚ)
    (steps : List LoopStep) :
    (runLoop playerId db bal steps).spins.length = (processedBets steps).length := by
  induction steps generalizing db bal with
  | nil => simp [runLoop, processedBets]
  | cons s rest ih =>
      by_cases h : s.choice = 'q'
      · simp [runLoop, processedBets, h]
      · simp [runLoop, processedBets, h, ih]

/-- The in-memory balance after the loop: the starting balance minus the
sum of the executed bets (`winnings` is the literal `0`). -/
theorem runLoop_balance (playerId : Int) (db : DB) (bal : ℚ)
    (steps : List LoopStep) :
    (runLoop playerId db bal steps).balance = bal - (processedBets steps).sum := by
  induction steps generalizing db bal with
  | nil => simp [runLoop, processedBets]
  | cons s rest ih =>
      by_cases h : s.choice = 'q'
      · simp [runLoop, processedBets, h]
      · simp only [runLoop, processedBets, h, if_neg, ite_false]
        rw [ih]
        simp
        ring

/-- Identity fields of a player row (everything except the mutable
`balance`). -/
def idFields (p : Player) : Int × String × Int × String := (p.id, p.name, p.age, p.card)

/-- The command/bet/draw content of a loop iteration, without the store
success flags. -/
def stepCore (s : LoopStep) : Char × ℚ × (Fin 9 → Fin 4) := (s.choice, s.bet, s.draw)

/-- `updateBalance` never changes a row's identity fields, the row order,
or the row count. -/
theorem updateBalance_idFields (db : DB) (playerId : Int) (amt : ℚ) (ok : Bool) :
    ((updateBalance db playerId amt ok).1.players.map idFields) = db.players.map idFields := by
  cases ok with
  | false => rfl
  | true =>
      simp only [updateBalance, if_true, List.map_map]
      apply List.map_congr_left
      intro p _
      by_cases h : p.id = playerId <;> simp [h, idFields]

/-- `updateBalance` never touches the history table or the id counter. -/
theorem updateBalance_frame (db : DB) (playerId : Int) (amt : ℚ) (ok : Bool) :
    (updateBalance db playerId amt ok).1.history = db.history ∧
    (updateBalance db playerId amt ok).1.nextId = db.nextId := by
  cases ok <;> simp [updateBalance]

/-- `saveSpinHistory` never touches the players table or the id counter. -/
theorem saveSpinHistory_frame (db : DB) (playerId : Int) (bet winnings balance : ℚ)
    (ok : Bool) :
    (saveSpinHistory db playerId bet winnings balance ok).1.players = db.players ∧
    (saveSpinHistory db playerId bet winnings balance ok).1.nextId = db.nextId := by
  cases ok <;> simp [saveSpinHistory]

/-- The spin loop never changes a player row's identity fields, the row
order, or the row count. -/
theorem runLoop_idFields (playerId : Int) (db : DB) (bal : ℚ) (steps : List LoopStep) :
    ((runLoop playerId db bal steps).db.players.map idFields) = db.players.map idFields := by
  induction steps generalizing db bal with
  | nil => simp [runLoop]
  | cons s rest ih =>
      by_cases h : s.choice = 'q'
      · simp [runLoop, h]
      · simp only [runLoop, h, ite_false]
        rw [ih, (saveSpinHistory_frame _ _ _ _ _ _).1, updateBalance_idFields]

/-- Every history row present after the loop was either already there or
was inserted by this loop with the loop's player id. -/
theorem runLoop_history_mem (playerId : Int) (db : DB) (bal : ℚ)
    (steps : List LoopStep) (rec : SpinRecord)
    (hmem : rec ∈ (runLoop playerId db bal steps).db.history) :
    rec ∈ db.history ∨ rec.player_id = playerId := by
  induction steps generalizing db bal with
  | nil => exact Or.inl hmem
  | cons s rest ih =>
      by_cases h : s.choice = 'q'
      · simp only [runLoop, h, ite_true] at hmem
        exact Or.inl hmem
      · simp only [runLoop, h, ite_false] at hmem
        rcases ih _ _ hmem with h2 | h2
        · cases hs : s.saveOk with
          | false =>
              rw [hs] at h2
              simp only [saveSpinHistory, Bool.false_eq_true, if_false] at h2
              rw [(updateBalance_frame db playerId _ s.updOk).1] at h2
              exact Or.inl h2
          | true =>
              rw [hs] at h2
              simp only [saveSpinHistory, if_true, List.mem_append,
                List.mem_singleton] at h2
              rcases h2 with h3 | h3
              · rw [(updateBalance_frame db playerId _ s.updOk).1] at h3
                exact Or.inl h3
              · right
                rw [h3]
        · exact Or.inr h2

/-- The loop reports having exited if and only if some processed
iteration's command was `'q'`. -/
theorem runLoop_quit_iff (playerId : Int) (db : DB) (bal : ℚ) (steps : List LoopStep) :
    (runLoop playerId db bal steps).quit = true ↔ ∃ s ∈ steps, s.choice = 'q' := by
  induction steps generalizing db bal with
  | nil => simp [runLoop]
  | cons s rest ih =>
      by_cases h : s.choice = 'q'
      · simp [runLoop, h]
      · simp [runLoop, h, ih]

/-- The user-visible loop trace (spins shown, in-memory balance, whether
the loop exited) depends only on the commands, bets and draws supplied —
not on the player id, the store contents, or whether any store write
succeeds. -/
theorem runLoop_flow (playerId playerId' : Int) (db db' : DB) (bal : ℚ)
    (steps steps' : List LoopStep)
    (h : steps.map stepCore = steps'.map stepCore) :
    (runLoop playerId db bal steps).spins = (runLoop playerId' db' bal steps').spins ∧
    (runLoop playerId db bal steps).balance = (runLoop playerId' db' bal steps').balance ∧
    (runLoop playerId db bal steps).quit = (runLoop playerId' db' bal steps').quit := by
  induction steps generalizing steps' db db' bal with
  | nil =>
      have : steps' = [] := by
        cases steps' with
        | nil => rfl
        | cons t ts => simp at h
      subst this
      simp [runLoop]
  | cons s rest ih =>
      cases steps' with
      | nil => simp at h
      | cons t ts =>
          simp only [List.map_cons, List.cons.injEq] at h
          obtain ⟨hc, hrest⟩ := h
          have hchoice : s.choice = t.choice := congrArg Prod.fst hc
          have hbet : s.bet = t.bet := congrArg (fun x => x.2.1) hc
          have hdraw : s.draw = t.draw := congrArg (fun x => x.2.2) hc
          by_cases hq : s.choice = 'q'
          · have hq2 : t.choice = 'q' := hchoice ▸ hq
            simp [runLoop, hq, hq2]
          · have hq' : ¬t.choice = 'q' := hchoice ▸ hq
            simp only [runLoop, hq, hq', ite_false]
            rw [hbet, hdraw]
            obtain ⟨h1, h2, h3⟩ := ih _ _ _ _ hrest
            exact ⟨List.cons_eq_cons.mpr ⟨rfl, h1⟩, h2, h3⟩

/-- When every history insert of the loop succeeds, the history table
afterwards is the old table followed by exactly one row per executed
spin, carrying the loop's player id, the spin's bet, winnings `0`, and
the balance that was reported to the user. -/
theorem runLoop_history_ok (playerId : Int) (db : DB) (bal : ℚ)
    (steps : List LoopStep) (hok : ∀ s ∈ steps, s.saveOk = true) :
    (runLoop playerId db bal steps).db.history =
      db.history ++ (runLoop playerId db bal steps).spins.map
        (fun o => { player_id := playerId, bet := o.bet, winnings := 0,
                    balance := o.reported : SpinRecord }) := by
  induction steps generalizing db bal with
  | nil => simp [runLoop]
  | cons s rest ih =>
      by_cases h : s.choice = 'q'
      · simp [runLoop, h]
      · have hs : s.saveOk = true := hok s (List.mem_cons_self s rest)
        have hok' : ∀ t ∈ rest, t.saveOk = true := fun t ht =>
          hok t (List.mem_cons_of_mem s ht)
        simp only [runLoop, h, ite_false, List.map_cons]
        rw [ih _ _ hok']
        rw [hs]
        simp only [saveSpinHistory, if_true]
        rw [(updateBalance_frame db playerId _ s.updOk).1]
        simp

/-- An `UPDATE ... WHERE id = ?` that matches no row changes nothing. -/
theorem updateBalance_no_match (db : DB) (playerId : Int) (amt : ℚ) (ok : Bool)
    (h : ∀ p ∈ db.players, p.id ≠ playerId) :
    (updateBalance db playerId amt ok).1.players = db.players := by
  cases ok with
  | false => rfl
  | true =>
      simp only [updateBalance, if_true]
      have hcong : ∀ p ∈ db.players,
          (if p.id == playerId then { p with balance := amt } else p) = p := by
        intro p hp
        simp [h p hp]
      calc db.players.map (fun p => if p.id == playerId then { p with balance := amt } else p)
          = db.players.map id := List.map_congr_left hcong
        _ = db.players := List.map_id db.players

/-- If the loop's player id matches no row, the loop never changes any
player row. -/
theorem runLoop_no_match (playerId : Int) (db : DB) (bal : ℚ) (steps : List LoopStep)
    (h : ∀ p ∈ db.players, p.id ≠ playerId) :
    (runLoop playerId db bal steps).db.players = db.players := by
  induction steps generalizing db bal with
  | nil => rfl
  | cons s rest ih =>
      by_cases hq : s.choice = 'q'
      · simp [runLoop, hq]
      · simp only [runLoop, hq, ite_false]
        have h1 := updateBalance_no_match db playerId (bal + (0 - s.bet)) s.updOk h
        have h2 := (saveSpinHistory_frame
          (updateBalance db playerId (bal + (0 - s.bet)) s.updOk).1 playerId s.bet 0
          (bal + (0 - s.bet)) s.saveOk).1
        rw [ih _ _ (by rw [h2, h1]; exact h), h2, h1]

/-- A lookup over a store with no matching row keeps the `-1` sentinel. -/
theorem getPlayerID_eq_neg_one (db : DB) (name : String) (age : Int) (card : String)
    (habsent : ∀ p ∈ db.players, matchesIdentity p name age card = false) :
    getPlayerID db name age card = -1 := by
  unfold getPlayerID
  rw [List.find?_eq_none.mpr (by intro x hx; simp [habsent x hx])]

/-- A freshly inserted row matches its own identity triple. -/
theorem matchesIdentity_self (i : Int) (name : String) (age : Int) (card : String)
    (b : ℚ) :
    matchesIdentity { id := i, name := name, age := age, card := card, balance := b }
      name age card = true := by
  simp [matchesIdentity]

/-- After inserting a previously absent identity triple, looking the
triple up returns the id the AUTOINCREMENT counter assigned to the new
row. -/
theorem getPlayerID_addPlayer (db : DB) (name : String) (age : Int) (card : String)
    (habsent : ∀ p ∈ db.players, matchesIdentity p name age card = false) :
    getPlayerID (addPlayer db name age card true).1 name age card = db.nextId := by
  unfold getPlayerID addPlayer
  simp only [if_true]
  rw [List.find?_append,
    List.find?_eq_none.mpr (by intro x hx; simp [habsent x hx])]
  simp [matchesIdentity_self]

/-- `addPlayer` never touches the history table. -/
theorem addPlayer_history (db : DB) (name : String) (age : Int) (card : String)
    (ok : Bool) :
    (addPlayer db name age card ok).1.history = db.history := by
  cases ok <;> simp [addPlayer]

/-- A player row updated for a matching id carries the written balance. -/
theorem updateBalance_sets_matching (db : DB) (playerId : Int) (amt : ℚ)
    (p : Player) (hp : p ∈ (updateBalance db playerId amt true).1.players)
    (hid : p.id = playerId) : p.balance = amt := by
  simp only [updateBalance, if_true, List.mem_map] at hp
  obtain ⟨q, hq, rfl⟩ := hp
  by_cases hqid : q.id = playerId
  · simp [hqid]
  · simp only [beq_iff_eq, hqid, if_false] at hid

/-- A concrete all-ok spin iteration, used by witnesses. -/
def stepP (b : ℚ) : LoopStep :=
  { choice := 'p', bet := b, draw := fun _ => 0, updOk := true, saveOk := true }

/-- A concrete spin iteration whose two store writes both fail, used by
witnesses. -/
def stepPFail (b : ℚ) : LoopStep :=
  { choice := 'p', bet := b, draw := fun _ => 0, updOk := false, saveOk := false }

/-- A concrete quit iteration, used by witnesses. -/
def stepQ : LoopStep :=
  { choice := 'q', bet := 0, draw := fun _ => 0, updOk := true, saveOk := true }

/-- A stored Alice row with a left-over balance of 90. -/
def alice90 : Player :=
  { id := 1, name := "Alice", age := 30, card := "1111", balance := 90 }

/-- A stored Bob row with balance 50. -/
def bob50 : Player :=
  { id := 2, name := "Bob", age := 40, card := "2222", balance := 50 }

/-- A stored history row for Alice's earlier 10-unit spin. -/
def rec1 : SpinRecord := { player_id := 1, bet := 10, winnings := 0, balance := 90 }

/-- A concrete store left over from earlier sessions. -/
def dbTwo : DB := { players := [alice90, bob50], history := [rec1], nextId := 3 }

/-- The spec's walk-through session: Alice logs in, bets 10, quits. -/
def inpAlice : SessionInput :=
  { name := "Alice", age := 30, card := "1111", addOk := true, fundOk := true,
    steps := [stepP 10, stepQ] }

/-- Alice logging in again and immediately doing nothing. -/
def inpAliceLogin : SessionInput :=
  { name := "Alice", age := 30, card := "1111", addOk := true, fundOk := true,
    steps := [] }

/-- The Alice session with every store write failing. -/
def inpAliceFail : SessionInput :=
  { name := "Alice", age := 30, card := "1111", addOk := false, fundOk := false,
    steps := [stepPFail 10, stepQ] }

/-- A fresh player whose insert fails. -/
def inpCarolFail : SessionInput :=
  { name := "Carol", age := 25, card := "3333", addOk := false, fundOk := true,
    steps := [stepP 10, stepQ] }

/-- C1: with winnings fixed at zero, every executed spin reports a new
balance equal to the balance before the spin minus the bet, and a session
started from the fresh balance of 100 ends with balance
`100 - (sum of the executed bets)` — for every bet value, zero and
negative included, with no bet-vs-balance check, so the balance may go
negative. -/
theorem spins_decrement_balance_by_bets (db : DB) (inp : SessionInput)
    (playerId : Int) (dbx : DB) (bal : ℚ) (s : LoopStep) (rest : List LoopStep)
    (h : s.choice ≠ 'q') :
    (runSession db inp).balance = 100 - (processedBets inp.steps).sum ∧
    (runLoop playerId dbx bal (s :: rest)).spins.head?.map SpinOut.reported =
      some (bal - s.bet) := by
  constructor
  · simp only [runSession]
    rw [runLoop_balance]
  · simp only [runLoop, h, ite_false, List.head?_cons, Option.map_some']
    congr 1
    ring

/-- C1 witness: the spec's Alice session ends at balance 90 = 100 − 10,
and with the session balance already at −5 a spin with bet 7 is accepted
and reports −12. -/
theorem spins_decrement_balance_by_bets_witness :
    (runSession emptyDB inpAlice).balance = 100 - (processedBets inpAlice.steps).sum ∧
    (runLoop 1 emptyDB (-5) (stepP 7 :: [])).spins.head?.map SpinOut.reported =
      some ((-5 : ℚ) - 7) :=
  spins_decrement_balance_by_bets emptyDB inpAlice 1 emptyDB (-5) (stepP 7) []
    (by decide)

/-- C2: every grid from the reel generator has 3 rows of 3 cells — 9
symbols in all — every cell is one of the four glyphs A, B, C, D; cell
(i, j) is the image under `symbolAt` of its own dedicated draw (number
`3*i + j`), distinct cells consume distinct draws, `symbolAt` is an
injection of the 4 equiprobable draw values onto the glyphs, and each
glyph is produced by exactly 1 of the 4 draw values — probability 1/4
per glyph, independently per cell; distinct draw sequences give distinct
grids. -/
theorem spin_grid_nine_uniform_cells (draw : Fin 9 → Fin 4) :
    (getSpinResult draw).length = 3 ∧
    (∀ row ∈ getSpinResult draw, row.length = 3) ∧
    (getSpinResult draw).flatten.length = 9 ∧
    (∀ row ∈ getSpinResult draw, ∀ c ∈ row, c ∈ symbolKeys) ∧
    (∀ i j : Fin 3,
      (((getSpinResult draw).getD i.val []).getD j.val 'A') =
        symbolAt (draw (cellIndex i j))) ∧
    Function.Injective symbolAt ∧
    (∀ g ∈ symbolKeys,
      (Finset.univ.filter (fun k : Fin 4 => symbolAt k = g)).card = 1) ∧
    (∀ i j i' j' : Fin 3, cellIndex i j = cellIndex i' j' → i = i' ∧ j = j') ∧
    Function.Injective getSpinResult := by
  have hmemkeys : ∀ k : Fin 4, symbolAt k ∈ symbolKeys := by decide
  have hinj : Function.Injective symbolAt := by decide
  refine ⟨?_, ?_, ?_, ?_, ?_, hinj, ?_, ?_, ?_⟩
  · simp [getSpinResult]
  · intro row hrow
    simp only [getSpinResult, List.mem_ofFn] at hrow
    obtain ⟨i, rfl⟩ := hrow
    simp
  · simp [getSpinResult, List.ofFn_succ]
  · intro row hrow c hc
    simp only [getSpinResult, List.mem_ofFn] at hrow
    obtain ⟨i, rfl⟩ := hrow
    simp only [List.mem_ofFn] at hc
    obtain ⟨j, rfl⟩ := hc
    exact hmemkeys _
  · intro i j
    fin_cases i <;> fin_cases j <;> rfl
  · intro g hg
    have : g = 'A' ∨ g = 'B' ∨ g = 'C' ∨ g = 'D' := by
      simpa [symbolKeys, symbols] using hg
    rcases this with rfl | rfl | rfl | rfl <;> decide
  · have : ∀ i j i' j' : Fin 3,
        cellIndex i j = cellIndex i' j' → i = i' ∧ j = j' := by decide
    exact this
  · intro d d' h
    have hcell : ∀ i j : Fin 3,
        symbolAt (d (cellIndex i j)) = symbolAt (d' (cellIndex i j)) := by
      intro i j
      have h1 := List.ofFn_inj.mp h
      have h2 := List.ofFn_inj.mp (congrFun h1 i)
      exact congrFun h2 j
    have hsurj : ∀ k : Fin 9, ∃ i j : Fin 3, cellIndex i j = k := by decide
    funext k
    obtain ⟨i, j, rfl⟩ := hsurj k
    exact hinj (hcell i j)

/-- C2 witness: instantiated at the all-zero draw sequence — the grid
has 3 rows and 9 cells, and the glyph A is produced by exactly one of
the four equiprobable draw values. -/
theorem spin_grid_nine_uniform_cells_witness :
    (getSpinResult (fun _ => 0)).length = 3 ∧
    (getSpinResult (fun _ => 0)).flatten.length = 9 ∧
    ('A' ∈ symbolKeys ∧
      (Finset.univ.filter (fun k : Fin 4 => symbolAt k = 'A')).card = 1) := by
  obtain ⟨h1, -, h3, -, -, -, h7, -, -⟩ := spin_grid_nine_uniform_cells (fun _ => 0)
  exact ⟨h1, h3, by decide, h7 'A' (by decide)⟩

/-- C3: once the session's identity is resolved, the stored balance of
the resolved player is overwritten with 100 — whatever balance any
matching row held before — and the session's in-memory balance starts at
100. -/
theorem login_resets_balance_to_100 (db : DB) (inp : SessionInput)
    (hfund : inp.fundOk = true) (hsteps : inp.steps = []) :
    (runSession db inp).balance = 100 ∧
    ∀ p ∈ (runSession db inp).db.players,
      p.id = (runSession db inp).playerId → p.balance = 100 := by
  constructor
  · simp only [runSession, hsteps]
    simp [runLoop]
  · intro p hp hid
    simp only [runSession, hsteps, hfund] at hp hid
    simp only [runLoop] at hp
    exact updateBalance_sets_matching _ _ _ p hp hid

/-- C3 witness: Alice's row still holds 90 from an earlier session; a
repeat login overwrites it with 100. -/
theorem login_resets_balance_to_100_witness :
    (runSession dbTwo inpAliceLogin).balance = 100 ∧
    ∀ p ∈ (runSession dbTwo inpAliceLogin).db.players,
      p.id = (runSession dbTwo inpAliceLogin).playerId → p.balance = 100 :=
  login_resets_balance_to_100 dbTwo inpAliceLogin rfl rfl

/-- C4: when the history inserts succeed, the loop appends exactly one
history record per executed spin — in order — and each record carries
the loop's player id, the bet entered for that spin, winnings 0, and the
very balance reported to the user after that spin. -/
theorem history_matches_reported (playerId : Int) (db : DB) (bal : ℚ)
    (steps : List LoopStep) (hok : ∀ s ∈ steps, s.saveOk = true) :
    (runLoop playerId db bal steps).db.history =
      db.history ++ (runLoop playerId db bal steps).spins.map
        (fun o => { player_id := playerId, bet := o.bet, winnings := 0,
                    balance := o.reported : SpinRecord }) ∧
    (runLoop playerId db bal steps).spins.length = (processedBets steps).length :=
  ⟨runLoop_history_ok playerId db bal steps hok,
   runLoop_spins_length playerId db bal steps⟩

/-- C4 witness: the Alice loop writes exactly the one record matching
its one reported spin. -/
theorem history_matches_reported_witness :
    (runLoop 1 emptyDB 100 [stepP 10, stepQ]).db.history =
      emptyDB.history ++ (runLoop 1 emptyDB 100 [stepP 10, stepQ]).spins.map
        (fun o => { player_id := 1, bet := o.bet, winnings := 0,
                    balance := o.reported : SpinRecord }) ∧
    (runLoop 1 emptyDB 100 [stepP 10, stepQ]).spins.length =
      (processedBets [stepP 10, stepQ]).length :=
  history_matches_reported 1 emptyDB 100 [stepP 10, stepQ] (by decide)

/-- C5: resolving an identity triple with no matching stored row creates
exactly one new player row, whose store-assigned id is the AUTOINCREMENT
counter value; the session resolves to that id and every history row the
session writes carries it. -/
theorem fresh_identity_creates_one_player (db : DB) (inp : SessionInput)
    (hadd : inp.addOk = true)
    (habsent : ∀ p ∈ db.players, matchesIdentity p inp.name inp.age inp.card = false) :
    (runSession db inp).playerId = db.nextId ∧
    (runSession db inp).db.players.map idFields =
      db.players.map idFields ++ [(db.nextId, inp.name, inp.age, inp.card)] ∧
    (∀ rec ∈ (runSession db inp).db.history,
      rec ∈ db.history ∨ rec.player_id = db.nextId) := by
  have h0 := getPlayerID_eq_neg_one db inp.name inp.age inp.card habsent
  have h1 := getPlayerID_addPlayer db inp.name inp.age inp.card habsent
  refine ⟨?_, ?_, ?_⟩
  · simp only [runSession, h0, hadd, if_pos]
    exact h1
  · simp only [runSession, h0, hadd, if_pos]
    rw [runLoop_idFields, updateBalance_idFields]
    simp [addPlayer, idFields]
  · intro rec hrec
    simp only [runSession, h0, hadd, if_pos] at hrec
    rcases runLoop_history_mem _ _ _ _ _ hrec with h2 | h2
    · rw [(updateBalance_frame _ _ _ _).1, addPlayer_history] at h2
      exact Or.inl h2
    · exact Or.inr (h2.trans h1)

/-- C5 witness: on the empty store, Alice's session creates the single
player row with id 1 and resolves to it. -/
theorem fresh_identity_creates_one_player_witness :
    (runSession emptyDB inpAlice).playerId = emptyDB.nextId ∧
    (runSession emptyDB inpAlice).db.players.map idFields =
      emptyDB.players.map idFields ++
        [(emptyDB.nextId, inpAlice.name, inpAlice.age, inpAlice.card)] ∧
    (∀ rec ∈ (runSession emptyDB inpAlice).db.history,
      rec ∈ emptyDB.history ∨ rec.player_id = emptyDB.nextId) :=
  fresh_identity_creates_one_player emptyDB inpAlice rfl (by decide)

/-- C6: resolving an identity triple that already has a stored matching
row yields the id of the first matching row — the same id every time the
triple is resolved — and creates no new player row: the row list keeps
the same length, order and identity fields. -/
theorem existing_identity_reuses_player (db : DB) (inp : SessionInput)
    (hwf : db.WF) (p₀ : Player)
    (hfind : db.players.find?
      (fun p => matchesIdentity p inp.name inp.age inp.card) = some p₀) :
    getPlayerID db inp.name inp.age inp.card = p₀.id ∧
    (runSession db inp).playerId = p₀.id ∧
    (runSession db inp).db.players.map idFields = db.players.map idFields := by
  have hget : getPlayerID db inp.name inp.age inp.card = p₀.id := by
    unfold getPlayerID
    rw [hfind]
  have hmem : p₀ ∈ db.players := List.mem_of_find?_eq_some hfind
  have hne : ¬getPlayerID db inp.name inp.age inp.card = -1 := by
    rw [hget]
    have := (hwf.1 p₀ hmem).1
    omega
  refine ⟨hget, ?_, ?_⟩
  · simp only [runSession, hne, if_neg, ite_false]
    exact hget
  · simp only [runSession, hne, if_neg, ite_false]
    rw [runLoop_idFields, updateBalance_idFields]

/-- The concrete store `dbTwo` is well-formed. -/
theorem dbTwo_WF : dbTwo.WF := ⟨by decide, by decide⟩

/-- C6 witness: Alice is already stored in `dbTwo` with id 1; a repeat
login resolves to 1 and adds no row. -/
theorem existing_identity_reuses_player_witness :
    DB.WF dbTwo ∧
    (getPlayerID dbTwo inpAlice.name inpAlice.age inpAlice.card = alice90.id ∧
     (runSession dbTwo inpAlice).playerId = alice90.id ∧
     (runSession dbTwo inpAlice).db.players.map idFields =
       dbTwo.players.map idFields) :=
  ⟨dbTwo_WF, existing_identity_reuses_player dbTwo inpAlice dbTwo_WF alice90
    (by decide)⟩

/-- C7: a `'q'` command ends the loop immediately — no bet is consumed,
no spin runs, no store write and no output happens — and when the store
opened, the process exit code is 0; any other command produces one full
spin (the grid from this iteration's draws and the new balance
`bal - bet` are shown first) and the loop goes on to the next command;
the loop exits exactly when some processed command is `'q'`, never
otherwise; a failed store open is the only non-zero exit. -/
theorem loop_quits_only_on_q (playerId : Int) (db : DB) (bal : ℚ) (s : LoopStep)
    (rest steps : List LoopStep) (sch1 sch2 : Bool) (db0 : DB)
    (inp : SessionInput) :
    (s.choice = 'q' →
      runLoop playerId db bal (s :: rest) =
        { db := db, balance := bal, spins := [], errors := [], quit := true }) ∧
    (s.choice ≠ 'q' →
      (runLoop playerId db bal (s :: rest)).spins.head? =
        some { grid := getSpinResult s.draw, bet := s.bet, reported := bal - s.bet } ∧
      (runLoop playerId db bal (s :: rest)).spins.length =
        1 + (processedBets rest).length) ∧
    ((runLoop playerId db bal steps).quit = true ↔ ∃ t ∈ steps, t.choice = 'q') ∧
    (mainRun true sch1 sch2 db0 inp).exitCode = 0 ∧
    (mainRun false sch1 sch2 db0 inp).exitCode = 1 := by
  refine ⟨?_, ?_, runLoop_quit_iff playerId db bal steps, ?_, ?_⟩
  · intro h
    simp [runLoop, h]
  · intro h
    constructor
    · simp only [runLoop, h, ite_false, List.head?_cons, Option.some.injEq]
      congr 1
      ring
    · simp only [runLoop, h, ite_false, List.length_cons]
      rw [runLoop_spins_length]
      omega
  · simp [mainRun]
  · simp [mainRun]

/-- C7 witness: at a concrete loop state, `'q'` quits at once leaving
everything untouched, `'p'` runs one full spin, and exit codes are 0 on
a successful open and 1 otherwise. -/
theorem loop_quits_only_on_q_witness :
    runLoop 1 dbTwo 100 (stepQ :: [stepP 5]) =
      { db := dbTwo, balance := 100, spins := [], errors := [], quit := true } ∧
    (runLoop 1 dbTwo 100 (stepP 5 :: [])).spins.head? =
      some { grid := getSpinResult (stepP 5).draw, bet := (stepP 5).bet,
             reported := 100 - (stepP 5).bet } ∧
    ((runLoop 1 dbTwo 100 [stepP 5]).quit = true ↔
      ∃ t ∈ [stepP 5], t.choice = 'q') ∧
    (mainRun true true true emptyDB inpAlice).exitCode = 0 ∧
    (mainRun false true true emptyDB inpAlice).exitCode = 1 := by
  obtain ⟨h1, h2, h3, h4, h5⟩ :=
    loop_quits_only_on_q 1 dbTwo 100 stepQ [stepP 5] [stepP 5] true true emptyDB
      inpAlice
  obtain ⟨h2a, -⟩ :=
    (loop_quits_only_on_q 1 dbTwo 100 (stepP 5) [] [stepP 5] true true emptyDB
      inpAlice).2.1 (by decide)
  exact ⟨h1 rfl, h2a, h3, h4, h5⟩

/-- C8: two-class error policy.  A store-open failure prints its
diagnostic and the process ends at once with exit code 1, running
nothing else.  Every other store operation, on failure, returns the
store unchanged together with exactly one diagnostic, and execution
continues: the user-visible session — spins shown, in-memory balance,
whether the loop ended — is identical whatever store state it runs
against and whichever subset of store writes fail. -/
theorem error_policy_two_classes (sch1 sch2 : Bool) (db db1 db2 : DB)
    (inp inp' : SessionInput) (name card : String) (age : Int)
    (playerId : Int) (amt bet winnings balance : ℚ)
    (hsteps : inp.steps.map stepCore = inp'.steps.map stepCore) :
    mainRun false sch1 sch2 db inp =
      { exitCode := 1, diagnostics := ["Error opening database."],
        session := none } ∧
    executeQuery db false = (db, ["Error executing query."]) ∧
    addPlayer db name age card false = (db, ["Error adding player."]) ∧
    updateBalance db playerId amt false = (db, ["Error updating balance."]) ∧
    saveSpinHistory db playerId bet winnings balance false =
      (db, ["Error saving spin history."]) ∧
    (runSession db1 inp).spins = (runSession db2 inp').spins ∧
    (runSession db1 inp).balance = (runSession db2 inp').balance ∧
    (runSession db1 inp).quit = (runSession db2 inp').quit := by
  refine ⟨rfl, rfl, rfl, rfl, rfl, ?_, ?_, ?_⟩
  · simp only [runSession]
    exact (runLoop_flow _ _ _ _ _ _ _ hsteps).1
  · simp only [runSession]
    exact (runLoop_flow _ _ _ _ _ _ _ hsteps).2.1
  · simp only [runSession]
    exact (runLoop_flow _ _ _ _ _ _ _ hsteps).2.2

/-- C8 witness: the all-failing Alice session shows the same spins, the
same balance and the same termination as the all-succeeding one. -/
theorem error_policy_two_classes_witness :
    (runSession dbTwo inpAliceFail).spins = (runSession emptyDB inpAlice).spins ∧
    (runSession dbTwo inpAliceFail).balance =
      (runSession emptyDB inpAlice).balance ∧
    (runSession dbTwo inpAliceFail).quit = (runSession emptyDB inpAlice).quit := by
  obtain ⟨-, -, -, -, -, h6, h7, h8⟩ :=
    error_policy_two_classes true true emptyDB dbTwo emptyDB inpAliceFail inpAlice
      "x" "y" 0 0 0 0 0 0 rfl
  exact ⟨h6, h7, h8⟩

/-- C9: `updateBalance` is an unconditional overwrite: for every id and
every amount — negative included — the row at each position whose id
matches gets exactly the new balance, every row whose id differs is
returned verbatim, identity fields, row order and row count are
untouched, and the history table and the id counter never change. -/
theorem updateBalance_unconditional_overwrite (db : DB) (playerId : Int)
    (amt : ℚ) (n : ℕ) (h : n < db.players.length)
    (h' : n < (updateBalance db playerId amt true).1.players.length) :
    (updateBalance db playerId amt true).1.history = db.history ∧
    (updateBalance db playerId amt true).1.nextId = db.nextId ∧
    (updateBalance db playerId amt true).1.players.length = db.players.length ∧
    (updateBalance db playerId amt true).1.players.map idFields =
      db.players.map idFields ∧
    (updateBalance db playerId amt true).1.players.get ⟨n, h'⟩ =
      (if (db.players.get ⟨n, h⟩).id = playerId
       then { db.players.get ⟨n, h⟩ with balance := amt }
       else db.players.get ⟨n, h⟩) := by
  refine ⟨(updateBalance_frame db playerId amt true).1,
    (updateBalance_frame db playerId amt true).2, ?_,
    updateBalance_idFields db playerId amt true, ?_⟩
  · simp [updateBalance]
  · simp only [updateBalance, if_true, List.get_eq_getElem, List.getElem_map]
    by_cases hid : db.players[n].id = playerId
    · simp [hid]
    · simp [hid]

/-- C9 witness: writing −5 to id 1 in `dbTwo` sets Alice's row to −5,
leaves Bob's row verbatim, and leaves the history table unchanged. -/
theorem updateBalance_unconditional_overwrite_witness :
    (updateBalance dbTwo 1 (-5) true).1.history = dbTwo.history ∧
    (updateBalance dbTwo 1 (-5) true).1.players.get ⟨0, by decide⟩ =
      { alice90 with balance := -5 } ∧
    (updateBalance dbTwo 1 (-5) true).1.players.get ⟨1, by decide⟩ = bob50 := by
  have h0 := updateBalance_unconditional_overwrite dbTwo 1 (-5) 0 (by decide)
    (by decide)
  have h1 := updateBalance_unconditional_overwrite dbTwo 1 (-5) 1 (by decide)
    (by decide)
  exact ⟨h0.1, h0.2.2.2.2.trans (by decide), h1.2.2.2.2.trans (by decide)⟩

/-- C10: the lookup's not-found sentinel is −1, and when the insert of a
fresh player fails the session simply proceeds with player id −1: the
loop still runs every supplied iteration, no player row is ever touched
(the balance writes match no row), and every history row the session
writes carries `player_id = -1`, referencing no existing player. -/
theorem failed_creation_runs_with_sentinel (db : DB) (inp : SessionInput)
    (hwf : db.WF)
    (habsent : ∀ p ∈ db.players, matchesIdentity p inp.name inp.age inp.card = false)
    (hfail : inp.addOk = false) :
    getPlayerID db inp.name inp.age inp.card = -1 ∧
    (runSession db inp).playerId = -1 ∧
    (runSession db inp).db.players = db.players ∧
    (runSession db inp).spins.length = (processedBets inp.steps).length ∧
    (∀ rec ∈ (runSession db inp).db.history,
      rec ∈ db.history ∨ rec.player_id = -1) := by
  have h0 := getPlayerID_eq_neg_one db inp.name inp.age inp.card habsent
  have hno : ∀ p ∈ db.players, p.id ≠ (-1 : Int) := by
    intro p hp
    have := (hwf.1 p hp).1
    omega
  refine ⟨h0, ?_, ?_, ?_, ?_⟩
  · simp only [runSession, h0, hfail, if_pos]
    simp only [addPlayer, Bool.false_eq_true, if_false]
    exact h0
  · simp only [runSession, h0, hfail, if_pos]
    simp only [addPlayer, Bool.false_eq_true, if_false, h0]
    rw [runLoop_no_match _ _ _ _ (by
      rw [updateBalance_no_match db (-1) 100 inp.fundOk hno]
      exact hno)]
    exact updateBalance_no_match db (-1) 100 inp.fundOk hno
  · simp only [runSession]
    rw [runLoop_spins_length]
  · intro rec hrec
    simp only [runSession, h0, hfail, if_pos] at hrec
    simp only [addPlayer, Bool.false_eq_true, if_false, h0] at hrec
    rcases runLoop_history_mem _ _ _ _ _ hrec with h2 | h2
    · rw [(updateBalance_frame _ _ _ _).1] at h2
      exact Or.inl h2
    · exact Or.inr h2

/-- C10 witness: Carol is absent from `dbTwo` and her insert fails; her
session runs its one spin with id −1, touches no player row, and its
history row carries −1. -/
theorem failed_creation_runs_with_sentinel_witness :
    getPlayerID dbTwo inpCarolFail.name inpCarolFail.age inpCarolFail.card = -1 ∧
    (runSession dbTwo inpCarolFail).playerId = -1 ∧
    (runSession dbTwo inpCarolFail).db.players = dbTwo.players ∧
    (runSession dbTwo inpCarolFail).spins.length =
      (processedBets inpCarolFail.steps).length ∧
    (∀ rec ∈ (runSession dbTwo inpCarolFail).db.history,
      rec ∈ dbTwo.history ∨ rec.player_id = -1) :=
  failed_creation_runs_with_sentinel dbTwo inpCarolFail dbTwo_WF (by decide) rfl
